import Mathlib

/-!
Verification of the priceactiontalk-heatmap data pipeline.

Shallow embedding of the repository's data-acquisition and normalization
code:
- `src/lib/types/backend.ts`: `normalizeScore`, `getBias`,
  `transformBackendResponse` and the associated data types;
- `src/lib/api/client.ts`: `HeatmapApiClient` (constructor default for
  `maxRetries`, `fetchWithRetry`, `validateResponse`,
  `getMultipleHeatmaps`);
- the Svelte component's `loadData` / `onDestroy` state transitions.

JavaScript numbers are modelled as rationals (`ℚ`), JS objects holding
normalized component scores as association lists with JS-object update
semantics (first-insertion position kept, value overwritten), and decoded
JSON payloads as an inductive `JValue` type.
-/

set_option autoImplicit false

/-- `Component` from `backend.ts`: one named sub-indicator of a pillar. -/
structure Component where
  key : String
  score : ℚ
deriving DecidableEq, Repr, Inhabited

/-- `Pillar` from `backend.ts`: a named scoring category with components. -/
structure Pillar where
  name : String
  score : ℚ
  components : List Component
deriving DecidableEq, Repr, Inhabited

/-- `HeatmapResponse` from `backend.ts`: the per-asset payload. -/
structure HeatmapResponse where
  asset : String
  score : ℚ
  scale : ℚ × ℚ
  pillars : List Pillar
  as_of : String
  version : String
deriving DecidableEq, Repr, Inhabited

/-- The closed union of bias labels of `HeatmapAsset.bias` in `backend.ts`. -/
inductive Bias where
  | veryBullish
  | bullish
  | neutral
  | bearish
  | veryBearish
deriving DecidableEq, Repr, Inhabited

/-- The literal string of each bias label in `backend.ts`. -/
def Bias.label : Bias → String
  | .veryBullish => "Very Bullish"
  | .bullish => "Bullish"
  | .neutral => "Neutral"
  | .bearish => "Bearish"
  | .veryBearish => "Very Bearish"

/-- A JS object mapping component keys to normalized scores, as an
association list: key order is first-insertion order, assignment to an
existing key overwrites its value in place. -/
abbrev ScoreRecord := List (String × Int)

/-- `HeatmapAsset` from `backend.ts`: the display-ready record.
`lastUpdated` holds the `as_of` string fed to `new Date(...)`. -/
structure HeatmapAsset where
  asset : String
  bias : Bias
  score : ℚ
  sentiment : ScoreRecord
  technical : ScoreRecord
  economic : ScoreRecord
  lastUpdated : String
deriving DecidableEq, Repr, Inhabited

/-- `HeatmapState` from `backend.ts`, the `PollState` of the spec.
Timestamps (`new Date()` at cycle completion) are modelled as `Nat`. -/
structure HeatmapState where
  data : List HeatmapAsset
  loading : Bool
  error : Option String
  lastUpdated : Option Nat
deriving DecidableEq, Repr, Inhabited

/-- `normalizeScore` from `backend.ts`, line for line:
`normalized = (score - min) / (max - min)` then the four threshold tests. -/
def normalizeScore (score : ℚ) (scale : ℚ × ℚ) : Int :=
  let mn := scale.1
  let mx := scale.2
  let normalized := (score - mn) / (mx - mn)
  if normalized ≤ 1/10 then -2
  else if normalized ≤ 3/10 then -1
  else if normalized ≤ 7/10 then 0
  else if normalized ≤ 9/10 then 1
  else 2

/-- The bucketing function of the spec, applied to an already-computed
ratio `t`; used to state that `normalizeScore` is exactly
`bucketOfT ((score - min) / (max - min))`. -/
def bucketOfT (t : ℚ) : Int :=
  if t ≤ 1/10 then -2
  else if t ≤ 3/10 then -1
  else if t ≤ 7/10 then 0
  else if t ≤ 9/10 then 1
  else 2

/-- `getBias` from `backend.ts`: fixed absolute thresholds on the total
score, independent of the scale. -/
def getBias (score : ℚ) : Bias :=
  if score ≥ 15 then .veryBullish
  else if score ≥ 8 then .bullish
  else if score ≥ -7 then .neutral
  else if score ≥ -15 then .bearish
  else .veryBearish

/-- JS `String.prototype.toLowerCase()`: lower-case every character
(component pillar names are ASCII). -/
def jsToLowerCase (s : String) : String :=
  ⟨s.data.map Char.toLower⟩

/-- Whether a JS object already owns key `k`. -/
def hasKey : ScoreRecord → String → Bool
  | [], _ => false
  | p :: m, k => if p.1 = k then true else hasKey m k

/-- JS object assignment `record[k] = v`: overwrite the value of an
existing key in place, otherwise append the new entry at the end. -/
def insertRecord (m : ScoreRecord) (k : String) (v : Int) : ScoreRecord :=
  if hasKey m k then
    m.map (fun p => if p.1 = k then (k, v) else p)
  else
    m ++ [(k, v)]

/-- JS object read `record[k]` (first entry with the key; entries are
unique by construction). -/
def lookupRecord : ScoreRecord → String → Option Int
  | [], _ => none
  | p :: m, k => if p.1 = k then some p.2 else lookupRecord m k

/-- The last component of a list carrying key `k`, if any: the one whose
assignment wins when duplicates share a key. -/
def lastWithKey : List Component → String → Option Component
  | [], _ => none
  | c :: cs, k =>
    match lastWithKey cs k with
    | some c' => some c'
    | none => if c.key = k then some c else none

/-- The three mutable record objects built by `transformBackendResponse`. -/
structure PillarMaps where
  sentiment : ScoreRecord
  technical : ScoreRecord
  economic : ScoreRecord
deriving DecidableEq, Repr, Inhabited

/-- One iteration of the inner `forEach` of `transformBackendResponse`:
normalize the component score with the response's scale, then `switch` on
`pillar.name.toLowerCase()`; an unmatched name hits no `case` and leaves
all three records untouched. -/
def applyComponent (scale : ℚ × ℚ) (name : String) (maps : PillarMaps)
    (c : Component) : PillarMaps :=
  let normalizedScore := normalizeScore c.score scale
  if jsToLowerCase name = "sentiment" then
    { maps with sentiment := insertRecord maps.sentiment c.key normalizedScore }
  else if jsToLowerCase name = "technical" then
    { maps with technical := insertRecord maps.technical c.key normalizedScore }
  else if jsToLowerCase name = "economic" then
    { maps with economic := insertRecord maps.economic c.key normalizedScore }
  else
    maps

/-- `transformBackendResponse` from `backend.ts`: the nested `forEach`
loops become nested folds over pillars and components. -/
def transformBackendResponse (response : HeatmapResponse) : HeatmapAsset :=
  let maps := response.pillars.foldl
    (fun maps pillar =>
      pillar.components.foldl
        (fun maps component =>
          applyComponent response.scale pillar.name maps component)
        maps)
    { sentiment := [], technical := [], economic := [] }
  { asset := response.asset
    bias := getBias response.score
    score := response.score
    sentiment := maps.sentiment
    technical := maps.technical
    economic := maps.economic
    lastUpdated := response.as_of }

/-! ## The HTTP client (`src/lib/api/client.ts`) -/

/-- A decoded JSON value, the input of `validateResponse`. -/
inductive JValue where
  | null
  | bool (b : Bool)
  | num (q : ℚ)
  | str (s : String)
  | arr (elems : List JValue)
  | obj (fields : List (String × JValue))

/-- JS truthiness test `!data` on a decoded JSON value: `null`, `false`,
`0` and the empty string are falsy; arrays and objects are always truthy. -/
def jsFalsy : JValue → Bool
  | .null => true
  | .bool b => !b
  | .num q => q == 0
  | .str s => s == ""
  | .arr _ => false
  | .obj _ => false

/-- JS test `typeof data === 'object'` on a decoded JSON value: true for
`null`, arrays and objects. -/
def jsTypeofObject : JValue → Bool
  | .null => true
  | .arr _ => true
  | .obj _ => true
  | _ => false

/-- JS `field in data` for a decoded JSON value that passed the
`typeof === 'object'` check: own keys of an object; index strings and
`length` for an array (the required field names never match those). -/
def hasField (d : JValue) (k : String) : Bool :=
  match d with
  | .obj fields => fields.any (fun p => p.1 == k)
  | .arr elems =>
      k == "length" || (List.range elems.length).any (fun i => toString i == k)
  | _ => false

/-- JS property read `data.k` (first matching key; `undefined` is
modelled as `null`, which is never an array). -/
def getField (d : JValue) (k : String) : JValue :=
  match d with
  | .obj fields => ((fields.find? (fun p => p.1 == k)).map (fun p => p.2)).getD .null
  | _ => .null

/-- `Array.isArray`. -/
def isJsArray : JValue → Bool
  | .arr _ => true
  | _ => false

/-- Length of a JSON array (0 on anything else; only used after
`isJsArray`). -/
def arrLen : JValue → Nat
  | .arr elems => elems.length
  | _ => 0

/-- The `required` list of `validateResponse`, in source order. -/
def requiredFields : List String :=
  ["asset", "score", "scale", "pillars", "as_of", "version"]

/-- `HeatmapApiClient.validateResponse` from `client.ts`: the guard
`!data || typeof data !== 'object'`, the fail-fast loop over
`requiredFields` (the first missing field wins), `Array.isArray(pillars)`,
and `Array.isArray(scale) && scale.length === 2`. The element types of
`scale` are not inspected. -/
def validateResponse (data : JValue) : Except String JValue :=
  if jsFalsy data || !jsTypeofObject data then
    .error "Invalid response format"
  else
    match requiredFields.find? (fun f => !hasField data f) with
    | some f => .error ("Missing required field: " ++ f)
    | none =>
      if !isJsArray (getField data "pillars") then
        .error "Pillars must be an array"
      else if !(isJsArray (getField data "scale") && arrLen (getField data "scale") == 2) then
        .error "Scale must be a tuple of two numbers"
      else
        .ok data

/-- The error thrown by one attempt of `fetchWithRetry`: a transport
failure, a non-2xx status (`HTTP <status>: <statusText>`), or a
`validateResponse` failure. All three are ordinary thrown errors and are
treated identically by the `catch` block. -/
inductive FetchError where
  | network (msg : String)
  | http (status : Nat) (statusText : String)
  | validation (msg : String)
deriving DecidableEq, Repr

/-- The observable behaviour of one `fetchWithRetry` call: how many
attempts ran, the `delay` waits (in milliseconds, in order) between them,
and the final outcome. -/
structure FetchTrace (α : Type) where
  attempts : Nat
  delays : List Nat
  result : Except FetchError α
deriving Repr

/-- `HeatmapApiClient.fetchWithRetry` from `client.ts`: the attempt at
recursion depth `retries` either succeeds, or - when
`retries < maxRetries` - waits `Math.pow(2, retries) * 1000` ms and
recurses with `retries + 1`, else rethrows the last error. The endpoint
is modelled as the outcome of each attempt, indexed by `retries`. -/
def fetchWithRetry {α : Type} (attempt : Nat → Except FetchError α)
    (maxRetries : Int) (retries : Nat) : FetchTrace α :=
  match attempt retries with
  | .ok v => { attempts := 1, delays := [], result := .ok v }
  | .error e =>
    if h : (retries : Int) < maxRetries then
      let rest := fetchWithRetry attempt maxRetries (retries + 1)
      { attempts := rest.attempts + 1
        delays := 2 ^ retries * 1000 :: rest.delays
        result := rest.result }
    else
      { attempts := 1, delays := [], result := .error e }
termination_by (maxRetries - retries).toNat
decreasing_by
  simp_wf
  omega

/-- The `HeatmapApiClient` constructor's
`this.maxRetries = config.maxRetries || 3`: JS `||` replaces a falsy
value, so both an absent `maxRetries` and a configured `0` become 3. -/
def effMaxRetries : Option Int → Int
  | none => 3
  | some m => if m = 0 then 3 else m

/-- `getHeatmap` (via `fetchWithRetry(url)`, i.e. `retries = 0`) with the
client configured from `config.maxRetries`. -/
def getAssetTrace {α : Type} (cfgMaxRetries : Option Int)
    (attempt : Nat → Except FetchError α) : FetchTrace α :=
  fetchWithRetry attempt (effMaxRetries cfgMaxRetries) 0

/-- One settled promise of `Promise.allSettled`, positionally ordered as
its input. -/
inductive SettledResult (α : Type) where
  | fulfilled (value : α)
  | rejected (reason : String)
deriving DecidableEq, Repr

/-- The `result.status === 'fulfilled'` filter predicate. -/
def SettledResult.isFulfilled {α : Type} : SettledResult α → Bool
  | .fulfilled _ => true
  | .rejected _ => false

/-- `result.value` (the TS type guard makes this total on the filtered
list). -/
def SettledResult.value {α : Type} [Inhabited α] : SettledResult α → α
  | .fulfilled v => v
  | .rejected _ => default

/-- The successful payload of a settled result, if any. -/
def SettledResult.okValue {α : Type} : SettledResult α → Option α
  | .fulfilled v => some v
  | .rejected _ => none

/-- `HeatmapApiClient.getMultipleHeatmaps` from `client.ts`: one call per
asset, `Promise.allSettled` (the argument list is the settled outcomes in
request order), then `.filter(fulfilled).map(value)`. It returns a plain
list: no per-asset error ever escapes it. -/
def getMultipleHeatmaps (results : List (SettledResult HeatmapResponse)) :
    List HeatmapResponse :=
  (results.filter (fun r => r.isFulfilled)).map (fun r => r.value)

/-! ## The polling component (`EdgeFinderHeatmap.svelte`) -/

/-- The first `state.update` of `loadData`:
`{ ...s, loading: true, error: null }`. -/
def loadDataStart (s : HeatmapState) : HeatmapState :=
  { s with loading := true, error := none }

/-- The completion of `loadData`'s `try`/`catch`: on success replace
`data` wholesale and stamp `lastUpdated = new Date()` (modelled as `now`);
on a thrown error set `loading = false` and `error` to the message,
touching nothing else. -/
def loadDataFinish (attempt : Except String (List HeatmapAsset)) (now : Nat)
    (s : HeatmapState) : HeatmapState :=
  match attempt with
  | .ok d => { s with data := d, loading := false, lastUpdated := some now }
  | .error e => { s with loading := false, error := some e }

/-- One whole `loadData` cycle, parametrised by the outcome of the
`try`-block body (`getMultipleHeatmaps` + `transformBackendResponse`). -/
def loadData (attempt : Except String (List HeatmapAsset)) (now : Nat)
    (s : HeatmapState) : HeatmapState :=
  loadDataFinish attempt now (loadDataStart s)

/-- The Svelte component instance: its state store and whether the
`setInterval` timer is pending. -/
structure WidgetModel where
  state : HeatmapState
  timerActive : Bool
deriving DecidableEq, Repr

/-- `onDestroy` from the component: `clearInterval(refreshInterval)` and
nothing else - in particular no flag that would stop an in-flight
`loadData` from writing to the store. -/
def onDestroy (w : WidgetModel) : WidgetModel :=
  { w with timerActive := false }

/-- Completion of a `loadData` cycle that was already past its first
`state.update` when it resolves: the source runs `state.update`
unconditionally, so the model applies `loadDataFinish` to the store
regardless of whether the component was destroyed. -/
def completeCycle (attempt : Except String (List HeatmapAsset)) (now : Nat)
    (w : WidgetModel) : WidgetModel :=
  { w with state := loadDataFinish attempt now w.state }

/-! ## Concrete fixture data (the `USOIL` entry of `MockApiClient`) -/

/-- The `USOIL` mock response from `client.ts` (its `as_of` is
`new Date().toISOString()`; a fixed stand-in string is used here). -/
def mockUSOIL : HeatmapResponse :=
  { asset := "USOIL"
    score := 13
    scale := (-24, 24)
    pillars :=
      [ { name := "sentiment"
          score := 4
          components := [{ key := "cot", score := 2 }, { key := "retailPos", score := 2 }] }
      , { name := "technical"
          score := 3
          components := [{ key := "seasonality", score := 1 }, { key := "trend", score := 2 }] }
      , { name := "economic"
          score := 6
          components :=
            [ { key := "gdp", score := 1 }, { key := "mPMI", score := 1 }
            , { key := "sPMI", score := 1 }, { key := "retailSales", score := 1 }
            , { key := "inflation", score := 1 }, { key := "employmentChange", score := 1 } ] } ]
    as_of := "2025-08-01T00:00:00.000Z"
    version := "2025.08.1" }

/-- A pillar whose name matches none of the three routed categories. -/
def macroPillar : Pillar :=
  { name := "macro", score := 0, components := [{ key := "x", score := 1 }] }

/-- A mixed-case sentiment pillar with a duplicated component key, to
exercise case-insensitive routing and last-write-wins. -/
def mixedSentPillar : Pillar :=
  { name := "Sentiment"
    score := 4
    components :=
      [ { key := "cot", score := 2 }
      , { key := "retailPos", score := 2 }
      , { key := "cot", score := -24 } ] }

/-- A mixed-case technical pillar with a duplicated component key. -/
def mixedTechPillar : Pillar :=
  { name := "Technical"
    score := 3
    components :=
      [ { key := "trend", score := 2 }
      , { key := "seasonality", score := 1 }
      , { key := "trend", score := -24 } ] }

/-- An upper-case economic pillar with a duplicated component key. -/
def mixedEconPillar : Pillar :=
  { name := "ECONOMIC"
    score := 6
    components :=
      [ { key := "gdp", score := 1 }
      , { key := "gdp", score := 24 } ] }

/-- A well-formed decoded payload: all six required keys, `pillars` an
array, `scale` an array of two numbers. -/
def goodPayload : JValue :=
  .obj
    [ ("asset", .str "EUR"), ("score", .num 10)
    , ("scale", .arr [.num (-24), .num 24]), ("pillars", .arr [])
    , ("as_of", .str "2025-08-01T00:00:00.000Z"), ("version", .str "2025.08.1") ]

/-- A payload whose `scale` is an array of two strings instead of two
numbers; everything else is well-formed. -/
def stringScalePayload : JValue :=
  .obj
    [ ("asset", .str "EUR"), ("score", .num 10)
    , ("scale", .arr [.str "a", .str "b"]), ("pillars", .arr [])
    , ("as_of", .str "2025-08-01T00:00:00.000Z"), ("version", .str "2025.08.1") ]

/-- A batch whose every per-asset call settled rejected. -/
def failedBatch : List (SettledResult HeatmapResponse) :=
  [ SettledResult.rejected "HTTP 500: Internal Server Error"
  , SettledResult.rejected "Missing required field: asset" ]

/-! ## Helper lemmas -/

/-- Trace of `fetchWithRetry` against an endpoint whose every attempt
fails: starting at depth `r`, it runs `1 + (maxRetries - r)` attempts,
waits `2 ^ (r + i) * 1000` ms after the `i`-th of them, and surfaces the
error of the last attempt. -/
theorem fetchWithRetry_allFail {α : Type} (err : Nat → FetchError) (m : Int) :
    ∀ (k r : Nat), (m - r).toNat = k →
      fetchWithRetry (α := α) (fun i => Except.error (err i)) m r =
        { attempts := 1 + k
          delays := (List.range k).map (fun i => 2 ^ (r + i) * 1000)
          result := Except.error (err (r + k)) } := by
  intro k
  induction k with
  | zero =>
    intro r hk
    have hge : ¬ ((r : Int) < m) := by omega
    rw [fetchWithRetry]
    simp [hge]
  | succ k ih =>
    intro r hk
    have hlt : (r : Int) < m := by omega
    have hk2 : (m - ((r : Nat) + 1)).toNat = k := by omega
    rw [fetchWithRetry]
    simp only [hlt, dif_pos, ih (r + 1) hk2]
    simp only [FetchTrace.mk.injEq]
    refine ⟨by omega, ?_, by rw [show r + 1 + k = r + (k + 1) by omega]⟩
    rw [List.range_succ_eq_map, List.map_cons, List.map_map]
    refine congrArg₂ _ (by norm_num) (List.map_congr_left ?_)
    intro i _
    simp only [Function.comp_apply]
    have hexp : r + 1 + i = r + (i + 1) := by omega
    rw [hexp]

/-! ## Claim theorems -/

/-- C1 (amended): with the client's effective retry limit
`m = effMaxRetries cfg` - which is the configured value for a positive
configuration but 3 both when `maxRetries` is unspecified and when it is
configured as `0` (JS `||` treats `0` as falsy) - `getAsset` against an
endpoint whose every attempt fails performs exactly `1 + m` total
attempts, waits `2 ^ i * 1000` ms (1 s, 2 s, 4 s, ...) after the `i`-th
failed attempt, and surfaces the error of the last attempt; every failure
kind (transport, non-2xx HTTP status, validation failure) is retried
identically, since `err` ranges over all of them. -/
theorem getAsset_allFail_retry_schedule {α : Type} (err : Nat → FetchError)
    (cfg : Option Int) :
    (effMaxRetries none = 3) ∧
    (∀ k : Int, effMaxRetries (some k) = if k = 0 then 3 else k) ∧
    ((getAssetTrace (α := α) cfg (fun i => Except.error (err i))).attempts =
        1 + (effMaxRetries cfg).toNat ∧
      (getAssetTrace (α := α) cfg (fun i => Except.error (err i))).delays =
        (List.range (effMaxRetries cfg).toNat).map (fun i => 2 ^ i * 1000) ∧
      (getAssetTrace (α := α) cfg (fun i => Except.error (err i))).result =
        Except.error (err (effMaxRetries cfg).toNat)) := by
  refine ⟨rfl, fun k => rfl, ?_⟩
  have h := fetchWithRetry_allFail (α := α) err (effMaxRetries cfg)
    (effMaxRetries cfg).toNat 0 (by omega)
  unfold getAssetTrace
  rw [h]
  refine ⟨by simp, by simp, by simp⟩

/-- C1 counterexample: the claim fails for the configured non-negative
value `maxRetries = 0`: the constructor's `config.maxRetries || 3` turns
`0` into the default 3, so an always-failing endpoint (here always
HTTP 500) sees 4 total attempts, not `1 + 0 = 1`. -/
theorem getAsset_maxRetriesZero_counterexample :
    (getAssetTrace (α := HeatmapResponse) (some 0)
        (fun _ => Except.error (FetchError.http 500 "Internal Server Error"))).attempts = 4 ∧
    4 ≠ 1 + 0 := by
  refine ⟨?_, by decide⟩
  have h := fetchWithRetry_allFail (α := HeatmapResponse)
    (fun _ => FetchError.http 500 "Internal Server Error") (effMaxRetries (some 0)) 3 0
    (by decide)
  unfold getAssetTrace
  rw [h]

/-- C2: for every score and scale pair with `min < max`, `normalizeScore`
is exactly the bucketing of `t = (score - min) / (max - min)` by the
inclusive ascending thresholds 0.1 / 0.3 / 0.7 / 0.9; in particular the
scale minimum lands in bucket -2, the maximum in 2 and the midpoint
in 0. -/
theorem normalizeScore_bucket_boundaries (score mn mx : ℚ) (h : mn < mx) :
    normalizeScore score (mn, mx) = bucketOfT ((score - mn) / (mx - mn)) ∧
    normalizeScore mn (mn, mx) = -2 ∧
    normalizeScore mx (mn, mx) = 2 ∧
    normalizeScore ((mn + mx) / 2) (mn, mx) = 0 := by
  have hne : mx - mn ≠ 0 := sub_ne_zero.mpr h.ne'
  refine ⟨rfl, ?_, ?_, ?_⟩
  · simp only [normalizeScore, sub_self, zero_div]
    norm_num
  · simp only [normalizeScore, div_self hne]
    norm_num
  · have hmid : ((mn + mx) / 2 - mn) / (mx - mn) = 1 / 2 := by
      field_simp
      ring
    simp only [normalizeScore, hmid]
    norm_num

/-- C2 witness: the boundary facts at the concrete scale `[-24, 24]` with
score 5. -/
theorem normalizeScore_bucket_boundaries_witness :
    normalizeScore 5 ((-24 : ℚ), 24) = bucketOfT ((5 - (-24)) / (24 - (-24))) ∧
    normalizeScore (-24) ((-24 : ℚ), 24) = -2 ∧
    normalizeScore 24 ((-24 : ℚ), 24) = 2 ∧
    normalizeScore ((-24 + 24) / 2) ((-24 : ℚ), 24) = 0 :=
  normalizeScore_bucket_boundaries 5 (-24) 24 (by norm_num)

/-- C3: `getBias` uses the fixed absolute thresholds 15 / 8 / -7 / -15,
independent of any scale: each label is returned exactly on the claimed
half-open interval, and the six claimed boundary evaluations hold. -/
theorem getBias_thresholds :
    (∀ s : ℚ,
      (getBias s = .veryBullish ↔ 15 ≤ s) ∧
      (getBias s = .bullish ↔ 8 ≤ s ∧ s < 15) ∧
      (getBias s = .neutral ↔ -7 ≤ s ∧ s < 8) ∧
      (getBias s = .bearish ↔ -15 ≤ s ∧ s < -7) ∧
      (getBias s = .veryBearish ↔ s < -15)) ∧
    getBias 15 = .veryBullish ∧ getBias 8 = .bullish ∧ getBias 7 = .neutral ∧
    getBias (-7) = .neutral ∧ getBias (-8) = .bearish ∧ getBias (-16) = .veryBearish := by
  refine ⟨fun s => ?_, by decide, by decide, by decide, by decide, by decide, by decide⟩
  unfold getBias
  split_ifs with h1 h2 h3 h4 <;>
    refine ⟨?_, ?_, ?_, ?_, ?_⟩ <;>
    simp_all <;>
    first
      | linarith
      | (constructor <;> linarith)
      | (intro hx; linarith)

/-- Projection of one component step onto the `sentiment` record. -/
theorem applyComponent_sentiment (sc : ℚ × ℚ) (name : String) (maps : PillarMaps)
    (c : Component) :
    (applyComponent sc name maps c).sentiment =
      if jsToLowerCase name = "sentiment" then
        insertRecord maps.sentiment c.key (normalizeScore c.score sc)
      else maps.sentiment := by
  unfold applyComponent
  split_ifs <;> first | rfl | simp_all

/-- Projection of one component step onto the `technical` record. -/
theorem applyComponent_technical (sc : ℚ × ℚ) (name : String) (maps : PillarMaps)
    (c : Component) :
    (applyComponent sc name maps c).technical =
      if jsToLowerCase name = "technical" then
        insertRecord maps.technical c.key (normalizeScore c.score sc)
      else maps.technical := by
  unfold applyComponent
  split_ifs <;> first | rfl | simp_all

/-- Projection of one component step onto the `economic` record. -/
theorem applyComponent_economic (sc : ℚ × ℚ) (name : String) (maps : PillarMaps)
    (c : Component) :
    (applyComponent sc name maps c).economic =
      if jsToLowerCase name = "economic" then
        insertRecord maps.economic c.key (normalizeScore c.score sc)
      else maps.economic := by
  unfold applyComponent
  split_ifs <;> first | rfl | simp_all

/-- After an in-place overwrite of key `k`, looking up `k` yields the new
value, provided the key was present. -/
theorem lookup_map_overwrite (k : String) (v : Int) :
    ∀ m : ScoreRecord, hasKey m k = true →
      lookupRecord (m.map (fun p => if p.1 = k then (k, v) else p)) k = some v := by
  intro m
  induction m with
  | nil => intro h; simp [hasKey] at h
  | cons q m ih =>
    intro h
    by_cases hq : q.1 = k
    · simp [lookupRecord, hq]
    · have h' : hasKey m k = true := by simpa [hasKey, hq] using h
      simp [lookupRecord, hq, ih h']

/-- Appending a fresh `(k, v)` entry makes `k` look up to `v`, provided
the key was absent. -/
theorem lookup_append_single (k : String) (v : Int) :
    ∀ m : ScoreRecord, hasKey m k = false →
      lookupRecord (m ++ [(k, v)]) k = some v := by
  intro m
  induction m with
  | nil => intro _; simp [lookupRecord]
  | cons q m ih =>
    intro h
    by_cases hq : q.1 = k
    · simp [hasKey, hq] at h
    · have h' : hasKey m k = false := by simpa [hasKey, hq] using h
      simp [lookupRecord, hq, ih h']

/-- Looking up the just-assigned key returns the new value. -/
theorem lookupRecord_insert_self (m : ScoreRecord) (k : String) (v : Int) :
    lookupRecord (insertRecord m k v) k = some v := by
  unfold insertRecord
  split_ifs with h
  · exact lookup_map_overwrite k v m h
  · exact lookup_append_single k v m (by simpa using h)

/-- An in-place overwrite of key `k` does not change lookups of other
keys. -/
theorem lookup_map_preserve (k k' : String) (v : Int) (hne : k' ≠ k) :
    ∀ m : ScoreRecord,
      lookupRecord (m.map (fun p => if p.1 = k then (k, v) else p)) k' =
        lookupRecord m k' := by
  intro m
  induction m with
  | nil => rfl
  | cons q m ih =>
    by_cases hq : q.1 = k
    · have hq' : ¬ q.1 = k' := by rw [hq]; exact Ne.symm hne
      simp [lookupRecord, hq, hq', Ne.symm hne, ih]
    · by_cases hq' : q.1 = k' <;> simp [lookupRecord, hq, hq', hne, ih]

/-- Appending a fresh `(k, v)` entry does not change lookups of other
keys. -/
theorem lookup_append_preserve (k k' : String) (v : Int) (hne : k' ≠ k) :
    ∀ m : ScoreRecord,
      lookupRecord (m ++ [(k, v)]) k' = lookupRecord m k' := by
  intro m
  induction m with
  | nil => simp [lookupRecord, Ne.symm hne]
  | cons q m ih =>
    by_cases hq : q.1 = k' <;> simp [lookupRecord, hq, ih]

/-- Looking up a different key is unaffected by an assignment. -/
theorem lookupRecord_insert_ne (m : ScoreRecord) (k k' : String) (v : Int)
    (hne : k' ≠ k) :
    lookupRecord (insertRecord m k v) k' = lookupRecord m k' := by
  unfold insertRecord
  split_ifs with h
  · exact lookup_map_preserve k k' v hne m
  · exact lookup_append_preserve k k' v hne m

/-- Last-write-wins through a fold of assignments: the value found for
key `k` comes from the last component with that key, and an untouched key
falls back to the initial record. -/
theorem lookupRecord_foldl_insert (f : Component → Int) (k : String) :
    ∀ (cs : List Component) (m0 : ScoreRecord),
      lookupRecord (cs.foldl (fun m c => insertRecord m c.key (f c)) m0) k =
        match lastWithKey cs k with
        | some c => some (f c)
        | none => lookupRecord m0 k := by
  intro cs
  induction cs with
  | nil => intro m0; rfl
  | cons c cs ih =>
    intro m0
    rw [List.foldl_cons, ih (insertRecord m0 c.key (f c))]
    cases hl : lastWithKey cs k with
    | some c' => simp [lastWithKey, hl]
    | none =>
      by_cases hc : c.key = k
      · simp only [lastWithKey, hl, hc, if_pos]
        exact lookupRecord_insert_self m0 k (f c)
      · simp only [lastWithKey, hl, hc, if_neg, ite_false]
        rw [lookupRecord_insert_ne m0 c.key k (f c) (Ne.symm hc)]

/-- The `sentiment` record after folding one pillar's components: an
insert fold when the lower-cased name matches, untouched otherwise. -/
theorem components_foldl_sentiment (sc : ℚ × ℚ) (name : String) :
    ∀ (cs : List Component) (maps : PillarMaps),
      (cs.foldl (fun m c => applyComponent sc name m c) maps).sentiment =
        if jsToLowerCase name = "sentiment" then
          cs.foldl (fun m c => insertRecord m c.key (normalizeScore c.score sc))
            maps.sentiment
        else maps.sentiment := by
  intro cs
  induction cs with
  | nil => intro maps; split_ifs <;> rfl
  | cons c cs ih =>
    intro maps
    rw [List.foldl_cons, ih (applyComponent sc name maps c), applyComponent_sentiment]
    split_ifs with h
    · rw [List.foldl_cons]
    · rfl

/-- The `technical` record after folding one pillar's components. -/
theorem components_foldl_technical (sc : ℚ × ℚ) (name : String) :
    ∀ (cs : List Component) (maps : PillarMaps),
      (cs.foldl (fun m c => applyComponent sc name m c) maps).technical =
        if jsToLowerCase name = "technical" then
          cs.foldl (fun m c => insertRecord m c.key (normalizeScore c.score sc))
            maps.technical
        else maps.technical := by
  intro cs
  induction cs with
  | nil => intro maps; split_ifs <;> rfl
  | cons c cs ih =>
    intro maps
    rw [List.foldl_cons, ih (applyComponent sc name maps c), applyComponent_technical]
    split_ifs with h
    · rw [List.foldl_cons]
    · rfl

/-- The `economic` record after folding one pillar's components. -/
theorem components_foldl_economic (sc : ℚ × ℚ) (name : String) :
    ∀ (cs : List Component) (maps : PillarMaps),
      (cs.foldl (fun m c => applyComponent sc name m c) maps).economic =
        if jsToLowerCase name = "economic" then
          cs.foldl (fun m c => insertRecord m c.key (normalizeScore c.score sc))
            maps.economic
        else maps.economic := by
  intro cs
  induction cs with
  | nil => intro maps; split_ifs <;> rfl
  | cons c cs ih =>
    intro maps
    rw [List.foldl_cons, ih (applyComponent sc name maps c), applyComponent_economic]
    split_ifs with h
    · rw [List.foldl_cons]
    · rfl

/-- The `sentiment` record of the full pillar fold: only pillars whose
lower-cased name is `sentiment` contribute. -/
theorem pillars_foldl_sentiment (sc : ℚ × ℚ) :
    ∀ (ps : List Pillar) (maps : PillarMaps),
      (ps.foldl
          (fun maps p => p.components.foldl (fun m c => applyComponent sc p.name m c) maps)
          maps).sentiment =
        ps.foldl
          (fun m p =>
            if jsToLowerCase p.name = "sentiment" then
              p.components.foldl (fun m c => insertRecord m c.key (normalizeScore c.score sc)) m
            else m)
          maps.sentiment := by
  intro ps
  induction ps with
  | nil => intro maps; rfl
  | cons p ps ih =>
    intro maps
    rw [List.foldl_cons, List.foldl_cons, ih, components_foldl_sentiment]

/-- The `technical` record of the full pillar fold. -/
theorem pillars_foldl_technical (sc : ℚ × ℚ) :
    ∀ (ps : List Pillar) (maps : PillarMaps),
      (ps.foldl
          (fun maps p => p.components.foldl (fun m c => applyComponent sc p.name m c) maps)
          maps).technical =
        ps.foldl
          (fun m p =>
            if jsToLowerCase p.name = "technical" then
              p.components.foldl (fun m c => insertRecord m c.key (normalizeScore c.score sc)) m
            else m)
          maps.technical := by
  intro ps
  induction ps with
  | nil => intro maps; rfl
  | cons p ps ih =>
    intro maps
    rw [List.foldl_cons, List.foldl_cons, ih, components_foldl_technical]

/-- The `economic` record of the full pillar fold. -/
theorem pillars_foldl_economic (sc : ℚ × ℚ) :
    ∀ (ps : List Pillar) (maps : PillarMaps),
      (ps.foldl
          (fun maps p => p.components.foldl (fun m c => applyComponent sc p.name m c) maps)
          maps).economic =
        ps.foldl
          (fun m p =>
            if jsToLowerCase p.name = "economic" then
              p.components.foldl (fun m c => insertRecord m c.key (normalizeScore c.score sc)) m
            else m)
          maps.economic := by
  intro ps
  induction ps with
  | nil => intro maps; rfl
  | cons p ps ih =>
    intro maps
    rw [List.foldl_cons, List.foldl_cons, ih, components_foldl_economic]

/-- The `sentiment` map produced by `transformBackendResponse`, as a fold
over the matching pillars only. -/
theorem transform_sentiment_eq (r : HeatmapResponse) :
    (transformBackendResponse r).sentiment =
      r.pillars.foldl
        (fun m p =>
          if jsToLowerCase p.name = "sentiment" then
            p.components.foldl (fun m c => insertRecord m c.key (normalizeScore c.score r.scale)) m
          else m)
        [] :=
  pillars_foldl_sentiment r.scale r.pillars { sentiment := [], technical := [], economic := [] }

/-- The `technical` map produced by `transformBackendResponse`. -/
theorem transform_technical_eq (r : HeatmapResponse) :
    (transformBackendResponse r).technical =
      r.pillars.foldl
        (fun m p =>
          if jsToLowerCase p.name = "technical" then
            p.components.foldl (fun m c => insertRecord m c.key (normalizeScore c.score r.scale)) m
          else m)
        [] :=
  pillars_foldl_technical r.scale r.pillars { sentiment := [], technical := [], economic := [] }

/-- The `economic` map produced by `transformBackendResponse`. -/
theorem transform_economic_eq (r : HeatmapResponse) :
    (transformBackendResponse r).economic =
      r.pillars.foldl
        (fun m p =>
          if jsToLowerCase p.name = "economic" then
            p.components.foldl (fun m c => insertRecord m c.key (normalizeScore c.score r.scale)) m
          else m)
        [] :=
  pillars_foldl_economic r.scale r.pillars { sentiment := [], technical := [], economic := [] }

/-- A component of a pillar whose lower-cased name matches none of the
three cases leaves the three records untouched. -/
theorem applyComponent_unmatched (sc : ℚ × ℚ) (name : String) (maps : PillarMaps)
    (c : Component) (h1 : jsToLowerCase name ≠ "sentiment")
    (h2 : jsToLowerCase name ≠ "technical") (h3 : jsToLowerCase name ≠ "economic") :
    applyComponent sc name maps c = maps := by
  unfold applyComponent
  rw [if_neg h1, if_neg h2, if_neg h3]

/-- A whole unmatched pillar leaves the three records untouched. -/
theorem components_foldl_unmatched (sc : ℚ × ℚ) (name : String)
    (h1 : jsToLowerCase name ≠ "sentiment") (h2 : jsToLowerCase name ≠ "technical")
    (h3 : jsToLowerCase name ≠ "economic") :
    ∀ (cs : List Component) (maps : PillarMaps),
      cs.foldl (fun m c => applyComponent sc name m c) maps = maps := by
  intro cs
  induction cs with
  | nil => intro maps; rfl
  | cons c cs ih =>
    intro maps
    rw [List.foldl_cons, applyComponent_unmatched sc name maps c h1 h2 h3, ih]

/-- C5: `transformBackendResponse` keeps the raw total score unmodified,
sets `bias = classifyBias(score)`, and routes every component of every
pillar by case-insensitive match of the pillar name - normalizing with
the response's own scale: each of the three maps equals the fold over
exactly the pillars whose lower-cased name selects it, so no component
ever reaches another map; pillars matching none of the three names are
skipped in their entirety (appending one changes nothing, in any map);
and duplicate component keys within a pillar resolve last-write-wins,
stated per map together with the emptiness of the two unselected maps. -/
theorem transformBackendResponse_routing (r : HeatmapResponse) :
    (transformBackendResponse r).score = r.score ∧
    (transformBackendResponse r).bias = getBias r.score ∧
    ((transformBackendResponse r).sentiment =
      r.pillars.foldl
        (fun m p =>
          if jsToLowerCase p.name = "sentiment" then
            p.components.foldl
              (fun m c => insertRecord m c.key (normalizeScore c.score r.scale)) m
          else m)
        []) ∧
    ((transformBackendResponse r).technical =
      r.pillars.foldl
        (fun m p =>
          if jsToLowerCase p.name = "technical" then
            p.components.foldl
              (fun m c => insertRecord m c.key (normalizeScore c.score r.scale)) m
          else m)
        []) ∧
    ((transformBackendResponse r).economic =
      r.pillars.foldl
        (fun m p =>
          if jsToLowerCase p.name = "economic" then
            p.components.foldl
              (fun m c => insertRecord m c.key (normalizeScore c.score r.scale)) m
          else m)
        []) ∧
    (∀ p : Pillar, jsToLowerCase p.name ≠ "sentiment" →
      jsToLowerCase p.name ≠ "technical" → jsToLowerCase p.name ≠ "economic" →
      transformBackendResponse { r with pillars := r.pillars ++ [p] } =
        transformBackendResponse r) ∧
    (∀ (p : Pillar) (k : String), jsToLowerCase p.name = "sentiment" →
      lookupRecord (transformBackendResponse { r with pillars := [p] }).sentiment k =
        (lastWithKey p.components k).map (fun c => normalizeScore c.score r.scale) ∧
      (transformBackendResponse { r with pillars := [p] }).technical = [] ∧
      (transformBackendResponse { r with pillars := [p] }).economic = []) ∧
    (∀ (p : Pillar) (k : String), jsToLowerCase p.name = "technical" →
      lookupRecord (transformBackendResponse { r with pillars := [p] }).technical k =
        (lastWithKey p.components k).map (fun c => normalizeScore c.score r.scale) ∧
      (transformBackendResponse { r with pillars := [p] }).sentiment = [] ∧
      (transformBackendResponse { r with pillars := [p] }).economic = []) ∧
    (∀ (p : Pillar) (k : String), jsToLowerCase p.name = "economic" →
      lookupRecord (transformBackendResponse { r with pillars := [p] }).economic k =
        (lastWithKey p.components k).map (fun c => normalizeScore c.score r.scale) ∧
      (transformBackendResponse { r with pillars := [p] }).sentiment = [] ∧
      (transformBackendResponse { r with pillars := [p] }).technical = []) := by
  refine ⟨rfl, rfl, transform_sentiment_eq r, transform_technical_eq r,
    transform_economic_eq r, ?_, ?_, ?_, ?_⟩
  · intro p h1 h2 h3
    unfold transformBackendResponse
    simp only [List.foldl_append, List.foldl_cons, List.foldl_nil]
    rw [components_foldl_unmatched r.scale p.name h1 h2 h3]
  · intro p k hp
    refine ⟨?_, ?_, ?_⟩
    · rw [transform_sentiment_eq]
      simp only [List.foldl_cons, List.foldl_nil]
      rw [if_pos hp, lookupRecord_foldl_insert]
      cases hl : lastWithKey p.components k <;> simp [lookupRecord]
    · rw [transform_technical_eq]
      simp [hp]
    · rw [transform_economic_eq]
      simp [hp]
  · intro p k hp
    refine ⟨?_, ?_, ?_⟩
    · rw [transform_technical_eq]
      simp only [List.foldl_cons, List.foldl_nil]
      rw [if_pos hp, lookupRecord_foldl_insert]
      cases hl : lastWithKey p.components k <;> simp [lookupRecord]
    · rw [transform_sentiment_eq]
      simp [hp]
    · rw [transform_economic_eq]
      simp [hp]
  · intro p k hp
    refine ⟨?_, ?_, ?_⟩
    · rw [transform_economic_eq]
      simp only [List.foldl_cons, List.foldl_nil]
      rw [if_pos hp, lookupRecord_foldl_insert]
      cases hl : lastWithKey p.components k <;> simp [lookupRecord]
    · rw [transform_sentiment_eq]
      simp [hp]
    · rw [transform_technical_eq]
      simp [hp]

/-- C5 witness: on the `USOIL` fixture, appending the unmatched pillar
`macro` changes nothing; the mixed-case `Sentiment`, `Technical` and
`ECONOMIC` pillars each route their components, with duplicated keys
resolved to the last component, into exactly their own map, leaving the
other two maps empty. -/
theorem transformBackendResponse_routing_witness :
    (jsToLowerCase macroPillar.name ≠ "sentiment" ∧
      jsToLowerCase macroPillar.name ≠ "technical" ∧
      jsToLowerCase macroPillar.name ≠ "economic" ∧
      jsToLowerCase mixedSentPillar.name = "sentiment" ∧
      jsToLowerCase mixedTechPillar.name = "technical" ∧
      jsToLowerCase mixedEconPillar.name = "economic") ∧
    (transformBackendResponse { mockUSOIL with pillars := mockUSOIL.pillars ++ [macroPillar] } =
      transformBackendResponse mockUSOIL) ∧
    (lookupRecord
        (transformBackendResponse { mockUSOIL with pillars := [mixedSentPillar] }).sentiment
        "cot" =
      (lastWithKey mixedSentPillar.components "cot").map
        (fun c => normalizeScore c.score mockUSOIL.scale) ∧
      (transformBackendResponse { mockUSOIL with pillars := [mixedSentPillar] }).technical = [] ∧
      (transformBackendResponse { mockUSOIL with pillars := [mixedSentPillar] }).economic = []) ∧
    (lookupRecord
        (transformBackendResponse { mockUSOIL with pillars := [mixedTechPillar] }).technical
        "trend" =
      (lastWithKey mixedTechPillar.components "trend").map
        (fun c => normalizeScore c.score mockUSOIL.scale) ∧
      (transformBackendResponse { mockUSOIL with pillars := [mixedTechPillar] }).sentiment = [] ∧
      (transformBackendResponse { mockUSOIL with pillars := [mixedTechPillar] }).economic = []) ∧
    (lookupRecord
        (transformBackendResponse { mockUSOIL with pillars := [mixedEconPillar] }).economic
        "gdp" =
      (lastWithKey mixedEconPillar.components "gdp").map
        (fun c => normalizeScore c.score mockUSOIL.scale) ∧
      (transformBackendResponse { mockUSOIL with pillars := [mixedEconPillar] }).sentiment = [] ∧
      (transformBackendResponse { mockUSOIL with pillars := [mixedEconPillar] }).technical = []) := by
  obtain ⟨-, -, -, -, -, hskip, hsent, htech, hecon⟩ :=
    transformBackendResponse_routing mockUSOIL
  exact ⟨⟨by decide, by decide, by decide, by decide, by decide, by decide⟩,
    hskip macroPillar (by decide) (by decide) (by decide),
    hsent mixedSentPillar "cot" (by decide),
    htech mixedTechPillar "trend" (by decide),
    hecon mixedEconPillar "gdp" (by decide)⟩

/-- `normalizeScore` can only produce one of the five buckets. -/
theorem normalizeScore_mem (s : ℚ) (sc : ℚ × ℚ) :
    normalizeScore s sc ∈ ([-2, -1, 0, 1, 2] : List Int) := by
  have h : normalizeScore s sc = bucketOfT ((s - sc.1) / (sc.2 - sc.1)) := rfl
  rw [h]
  unfold bucketOfT
  split_ifs <;> simp

/-- The threshold bucketing is monotone in the ratio. -/
theorem bucketOfT_mono {t1 t2 : ℚ} (h : t1 ≤ t2) : bucketOfT t1 ≤ bucketOfT t2 := by
  unfold bucketOfT
  split_ifs <;> linarith

/-- Every entry of an updated record either was there before or carries
the inserted value. -/
theorem insertRecord_mem {m : ScoreRecord} {k : String} {v : Int} {q : String × Int}
    (hq : q ∈ insertRecord m k v) : q ∈ m ∨ q.2 = v := by
  unfold insertRecord at hq
  split_ifs at hq with h
  · rcases List.mem_map.mp hq with ⟨p, hp, hpe⟩
    by_cases hpk : p.1 = k
    · right
      rw [← hpe]
      simp [hpk]
    · left
      rw [← hpe]
      simp only [if_neg hpk]
      exact hp
  · rcases List.mem_append.mp hq with h1 | h1
    · exact Or.inl h1
    · right
      have hq1 : q = (k, v) := List.mem_singleton.mp h1
      rw [hq1]

/-- A fold of assignments whose inserted values all satisfy `P` preserves
`P` over all record values. -/
theorem mem_foldl_insert (f : Component → Int) (P : Int → Prop) (hf : ∀ c, P (f c)) :
    ∀ (cs : List Component) (m0 : ScoreRecord), (∀ q ∈ m0, P q.2) →
      ∀ q ∈ cs.foldl (fun m c => insertRecord m c.key (f c)) m0, P q.2 := by
  intro cs
  induction cs with
  | nil => intro m0 h0; exact h0
  | cons c cs ih =>
    intro m0 h0
    rw [List.foldl_cons]
    refine ih _ ?_
    intro q hq
    rcases insertRecord_mem hq with h | h
    · exact h0 q h
    · rw [h]; exact hf c

/-- Every value inserted by the per-pillar routing fold is a normalized
bucket. -/
theorem mem_named_fold (sc : ℚ × ℚ) (nm : String) :
    ∀ (ps : List Pillar) (m0 : ScoreRecord),
      (∀ q ∈ m0, q.2 ∈ ([-2, -1, 0, 1, 2] : List Int)) →
      ∀ q ∈ ps.foldl
          (fun m p =>
            if jsToLowerCase p.name = nm then
              p.components.foldl
                (fun m c => insertRecord m c.key (normalizeScore c.score sc)) m
            else m)
          m0, q.2 ∈ ([-2, -1, 0, 1, 2] : List Int) := by
  intro ps
  induction ps with
  | nil => intro m0 h0; exact h0
  | cons p ps ih =>
    intro m0 h0
    rw [List.foldl_cons]
    refine ih _ ?_
    split_ifs with h
    · exact mem_foldl_insert _ _ (fun c => normalizeScore_mem c.score sc) p.components m0 h0
    · exact h0

/-- C8: for `min < max`, `normalizeScore` is non-decreasing in the score;
it always lands in the five buckets; and consequently every entry of the
`sentiment`, `technical` and `economic` maps built by
`transformBackendResponse` is one of the five bucket integers. -/
theorem normalizeScore_monotone_range :
    (∀ (mn mx s1 s2 : ℚ), mn < mx → s1 ≤ s2 →
      normalizeScore s1 (mn, mx) ≤ normalizeScore s2 (mn, mx)) ∧
    (∀ (s : ℚ) (sc : ℚ × ℚ), normalizeScore s sc ∈ ([-2, -1, 0, 1, 2] : List Int)) ∧
    (∀ r : HeatmapResponse, ∀ q ∈ (transformBackendResponse r).sentiment,
      q.2 ∈ ([-2, -1, 0, 1, 2] : List Int)) ∧
    (∀ r : HeatmapResponse, ∀ q ∈ (transformBackendResponse r).technical,
      q.2 ∈ ([-2, -1, 0, 1, 2] : List Int)) ∧
    (∀ r : HeatmapResponse, ∀ q ∈ (transformBackendResponse r).economic,
      q.2 ∈ ([-2, -1, 0, 1, 2] : List Int)) := by
  refine ⟨?_, normalizeScore_mem, ?_, ?_, ?_⟩
  · intro mn mx s1 s2 hlt hle
    have e1 : normalizeScore s1 (mn, mx) = bucketOfT ((s1 - mn) / (mx - mn)) := rfl
    have e2 : normalizeScore s2 (mn, mx) = bucketOfT ((s2 - mn) / (mx - mn)) := rfl
    rw [e1, e2]
    apply bucketOfT_mono
    have hc : (0 : ℚ) < mx - mn := sub_pos.mpr hlt
    exact (div_le_div_right hc).mpr (sub_le_sub_right hle mn)
  · intro r q hq
    rw [transform_sentiment_eq] at hq
    exact mem_named_fold r.scale "sentiment" r.pillars []
      (fun q hq => absurd hq (List.not_mem_nil q)) q hq
  · intro r q hq
    rw [transform_technical_eq] at hq
    exact mem_named_fold r.scale "technical" r.pillars []
      (fun q hq => absurd hq (List.not_mem_nil q)) q hq
  · intro r q hq
    rw [transform_economic_eq] at hq
    exact mem_named_fold r.scale "economic" r.pillars []
      (fun q hq => absurd hq (List.not_mem_nil q)) q hq

/-- C8 witness: monotonicity at scale `[-24, 24]` with scores 0 ≤ 24, and
the bucket-membership of the `cot` entry of the transformed `USOIL`
fixture. -/
theorem normalizeScore_monotone_range_witness :
    (((-24 : ℚ) < 24) ∧ ((0 : ℚ) ≤ (24 : ℚ)) ∧
      ("cot", 0) ∈ (transformBackendResponse mockUSOIL).sentiment) ∧
    normalizeScore 0 ((-24 : ℚ), 24) ≤ normalizeScore 24 ((-24 : ℚ), 24) ∧
    ((0 : Int) ∈ ([-2, -1, 0, 1, 2] : List Int)) := by
  have hsent : (transformBackendResponse mockUSOIL).sentiment =
      [("cot", 0), ("retailPos", 0)] := by
    norm_num +decide [transformBackendResponse, applyComponent, insertRecord, hasKey,
      jsToLowerCase, normalizeScore, mockUSOIL]
  have hmem : ("cot", (0 : Int)) ∈ (transformBackendResponse mockUSOIL).sentiment := by
    rw [hsent]
    simp
  refine ⟨⟨by norm_num, by norm_num, hmem⟩, ?_, ?_⟩
  · exact normalizeScore_monotone_range.1 (-24) 24 0 24 (by norm_num) (by norm_num)
  · exact normalizeScore_monotone_range.2.2.1 mockUSOIL ("cot", 0) hmem

/-- C9: when a refresh cycle ends in the `catch` branch, `loadData` sets
`loading = false` and `error` to the thrown message, but leaves `data`
and `lastUpdated` exactly as they were before the cycle. -/
theorem loadData_error_preserves (s : HeatmapState) (msg : String) (now : Nat) :
    (loadData (Except.error msg) now s).data = s.data ∧
    (loadData (Except.error msg) now s).lastUpdated = s.lastUpdated ∧
    (loadData (Except.error msg) now s).loading = false ∧
    (loadData (Except.error msg) now s).error = some msg :=
  ⟨rfl, rfl, rfl, rfl⟩

/-- The batch result is exactly the positionally ordered list of
fulfilled values. -/
theorem isFulfilled_fulfilled {α : Type} (v : α) :
    (SettledResult.fulfilled v).isFulfilled = true := rfl

theorem isFulfilled_rejected {α : Type} (e : String) :
    (SettledResult.rejected (α := α) e).isFulfilled = false := rfl

theorem value_fulfilled {α : Type} [Inhabited α] (v : α) :
    (SettledResult.fulfilled v).value = v := rfl

theorem okValue_fulfilled {α : Type} (v : α) :
    (SettledResult.fulfilled v).okValue = some v := rfl

theorem okValue_rejected {α : Type} (e : String) :
    (SettledResult.rejected (α := α) e).okValue = none := rfl

theorem gMH_eq_filterMap :
    ∀ rs : List (SettledResult HeatmapResponse),
      getMultipleHeatmaps rs = rs.filterMap SettledResult.okValue := by
  intro rs
  induction rs with
  | nil => rfl
  | cons r rs ih =>
    simp only [getMultipleHeatmaps] at ih ⊢
    cases r with
    | fulfilled v =>
      simp [List.filter_cons, List.filterMap_cons, isFulfilled_fulfilled,
        value_fulfilled, okValue_fulfilled, ih]
    | rejected e =>
      simp [List.filter_cons, List.filterMap_cons, isFulfilled_rejected,
        okValue_rejected, ih]

/-- C4: `getMultipleHeatmaps` never surfaces per-asset errors: for every
settled batch it returns exactly the fulfilled responses (it is total, a
plain list, never an exception); when every settled call rejected it
returns the empty list; and the refresh cycle built on an all-failed
batch completes as a successful cycle: `data = []`, `loading = false`,
`error = none`, `lastUpdated` stamped. -/
theorem getMultipleHeatmaps_allFailed_empty
    (results : List (SettledResult HeatmapResponse)) (now : Nat) (s : HeatmapState)
    (hall : ∀ r ∈ results, r.isFulfilled = false) :
    (∀ rs : List (SettledResult HeatmapResponse),
      getMultipleHeatmaps rs = rs.filterMap SettledResult.okValue) ∧
    getMultipleHeatmaps results = [] ∧
    loadData (Except.ok ((getMultipleHeatmaps results).map transformBackendResponse)) now s =
      { data := [], loading := false, error := none, lastUpdated := some now } := by
  have hempty : getMultipleHeatmaps results = [] := by
    unfold getMultipleHeatmaps
    have hfilter : results.filter (fun r => r.isFulfilled) = [] :=
      List.filter_eq_nil_iff.mpr (fun r hr => by simp [hall r hr])
    rw [hfilter, List.map_nil]
  refine ⟨gMH_eq_filterMap, hempty, ?_⟩
  rw [hempty]
  rfl

/-- C4 witness: a two-element all-rejected batch, applied from a state
holding a stale error, yields the successful empty cycle. -/
theorem getMultipleHeatmaps_allFailed_empty_witness :
    (∀ r ∈ failedBatch, r.isFulfilled = false) ∧
    ((∀ rs : List (SettledResult HeatmapResponse),
        getMultipleHeatmaps rs = rs.filterMap SettledResult.okValue) ∧
      getMultipleHeatmaps failedBatch = [] ∧
      loadData (Except.ok ((getMultipleHeatmaps failedBatch).map transformBackendResponse)) 7
          { data := [], loading := true, error := some "stale", lastUpdated := none } =
        { data := [], loading := false, error := none, lastUpdated := some 7 }) :=
  ⟨by decide,
    getMultipleHeatmaps_allFailed_empty failedBatch 7
      { data := [], loading := true, error := some "stale", lastUpdated := none }
      (by decide)⟩

/-- C10: `getMultipleHeatmaps` preserves request order: it is the
order-preserving extraction of the fulfilled values (`filterMap`), it
distributes over list append, a fulfilled head is emitted first, and a
rejected head is dropped without disturbing the rest. -/
theorem getMultipleHeatmaps_order (rs : List (SettledResult HeatmapResponse)) :
    getMultipleHeatmaps rs = rs.filterMap SettledResult.okValue ∧
    (∀ rs2, getMultipleHeatmaps (rs ++ rs2) =
      getMultipleHeatmaps rs ++ getMultipleHeatmaps rs2) ∧
    (∀ v, getMultipleHeatmaps (SettledResult.fulfilled v :: rs) =
      v :: getMultipleHeatmaps rs) ∧
    (∀ e, getMultipleHeatmaps (SettledResult.rejected e :: rs) =
      getMultipleHeatmaps rs) := by
  refine ⟨gMH_eq_filterMap rs, ?_, ?_, ?_⟩
  · intro rs2
    rw [gMH_eq_filterMap, gMH_eq_filterMap, gMH_eq_filterMap, List.filterMap_append]
  · intro v
    simp [gMH_eq_filterMap, List.filterMap_cons, SettledResult.okValue]
  · intro e
    simp [gMH_eq_filterMap, List.filterMap_cons, SettledResult.okValue]

/-- C7 (code bug): `onDestroy` only clears the interval timer. A
`loadData` cycle in flight at teardown still runs its unconditional
`state.update` when it completes: from the destroyed widget, completing
the cycle changes the state (`loading` drops to `false`, `lastUpdated`
is stamped), violating the no-mutation-after-stop requirement, while the
timer itself is indeed cancelled. -/
theorem onDestroy_inflight_mutation :
    ((completeCycle (Except.ok []) 7
        (onDestroy
          { state := { data := [], loading := true, error := none, lastUpdated := none }
            timerActive := true })).state ≠
      (onDestroy
        { state := { data := [], loading := true, error := none, lastUpdated := none }
          timerActive := true }).state) ∧
    (onDestroy
      { state := { data := [], loading := true, error := none, lastUpdated := none }
        timerActive := true }).timerActive = false := by
  refine ⟨?_, rfl⟩
  intro h
  have hload := congrArg HeatmapState.loading h
  simp [completeCycle, onDestroy, loadDataFinish] at hload

/-- C6 (amended): `validateResponse` accepts a payload exactly when it is
a non-null object holding all six required keys with `pillars` an array
and `scale` an array of exactly two elements - the element types of
`scale` are not checked - and the checks run in source order, failing
fast: the truthy-object guard first, then the first missing required
field, then the `pillars` array check, then the `scale` shape check. -/
theorem validateResponse_checks (d : JValue) :
    (validateResponse d = Except.ok d ↔
      ((∃ fields, d = JValue.obj fields) ∧
        (∀ f ∈ requiredFields, hasField d f = true) ∧
        isJsArray (getField d "pillars") = true ∧
        isJsArray (getField d "scale") = true ∧ arrLen (getField d "scale") = 2)) ∧
    ((jsFalsy d = true ∨ jsTypeofObject d = false) →
      validateResponse d = Except.error "Invalid response format") ∧
    (∀ f, jsFalsy d = false → jsTypeofObject d = true →
      requiredFields.find? (fun g => !hasField d g) = some f →
      validateResponse d = Except.error ("Missing required field: " ++ f)) ∧
    (jsFalsy d = false → jsTypeofObject d = true →
      (∀ f ∈ requiredFields, hasField d f = true) →
      isJsArray (getField d "pillars") = false →
      validateResponse d = Except.error "Pillars must be an array") ∧
    (jsFalsy d = false → jsTypeofObject d = true →
      (∀ f ∈ requiredFields, hasField d f = true) →
      isJsArray (getField d "pillars") = true →
      ¬(isJsArray (getField d "scale") = true ∧ arrLen (getField d "scale") = 2) →
      validateResponse d = Except.error "Scale must be a tuple of two numbers") := by
  refine ⟨⟨?_, ?_⟩, ?_, ?_, ?_, ?_⟩
  · -- acceptance implies the shape
    intro hok
    unfold validateResponse at hok
    by_cases hcond : (jsFalsy d || !jsTypeofObject d) = true
    · rw [if_pos hcond] at hok
      exact absurd hok (by simp)
    · rw [if_neg hcond] at hok
      have hor : (jsFalsy d || !jsTypeofObject d) = false := by
        cases hh : (jsFalsy d || !jsTypeofObject d) with
        | false => rfl
        | true => exact absurd hh hcond
      have hparts : jsFalsy d = false ∧ jsTypeofObject d = true := by
        simpa using hor
      cases hfind : requiredFields.find? (fun g => !hasField d g) with
      | some f =>
        simp only [hfind] at hok
        exact absurd hok (by simp)
      | none =>
        simp only [hfind] at hok
        have hpres : ∀ f ∈ requiredFields, hasField d f = true := by
          intro f hf
          have := List.find?_eq_none.mp hfind f hf
          simpa using this
        by_cases hpill : isJsArray (getField d "pillars") = true
        · simp only [hpill, Bool.not_true, if_false] at hok
          by_cases hsc : (isJsArray (getField d "scale") &&
              (arrLen (getField d "scale") == 2)) = true
          · have hsc1 : isJsArray (getField d "scale") = true :=
              ((Bool.and_eq_true _ _).mp hsc).1
            have hsc2 : arrLen (getField d "scale") = 2 := by
              have := ((Bool.and_eq_true _ _).mp hsc).2
              simpa using this
            refine ⟨?_, hpres, hpill, hsc1, hsc2⟩
            cases d with
            | null => simp [jsFalsy] at hparts
            | bool b => simp [jsTypeofObject] at hparts
            | num q => simp [jsTypeofObject] at hparts
            | str s => simp [jsTypeofObject] at hparts
            | arr elems => simp [getField, isJsArray] at hpill
            | obj fields => exact ⟨fields, rfl⟩
          · have hsc' : (isJsArray (getField d "scale") &&
                (arrLen (getField d "scale") == 2)) = false := by
              cases hh : (isJsArray (getField d "scale") &&
                  (arrLen (getField d "scale") == 2)) with
              | false => rfl
              | true => exact absurd hh hsc
            simp [hsc'] at hok
        · have hpill' : isJsArray (getField d "pillars") = false := by
            cases hh : isJsArray (getField d "pillars") with
            | false => rfl
            | true => exact absurd hh hpill
          simp [hpill'] at hok
  · -- the shape implies acceptance
    rintro ⟨⟨fields, rfl⟩, hpres, hpill, hsc, hlen⟩
    have hnone : requiredFields.find?
        (fun g => !hasField (JValue.obj fields) g) = none :=
      List.find?_eq_none.mpr (fun x hx => by simp [hpres x hx])
    simp [validateResponse, jsFalsy, jsTypeofObject, hnone, hpill, hsc, hlen]
  · intro h
    rcases h with h | h <;> simp [validateResponse, h]
  · intro f h1 h2 hfind
    simp [validateResponse, h1, h2, hfind]
  · intro h1 h2 hpres hpill
    have hnone : requiredFields.find? (fun g => !hasField d g) = none :=
      List.find?_eq_none.mpr (fun x hx => by simp [hpres x hx])
    simp [validateResponse, h1, h2, hnone, hpill]
  · intro h1 h2 hpres hpill hsc
    have hnone : requiredFields.find? (fun g => !hasField d g) = none :=
      List.find?_eq_none.mpr (fun x hx => by simp [hpres x hx])
    have hfalse : (isJsArray (getField d "scale") &&
        (arrLen (getField d "scale") == 2)) = false := by
      cases hA : isJsArray (getField d "scale") with
      | false => simp
      | true =>
        cases hL : (arrLen (getField d "scale") == 2) with
        | false => simp [hL]
        | true => exact absurd ⟨hA, by simpa using hL⟩ hsc
    simp [validateResponse, h1, h2, hnone, hpill, hfalse]

/-- C6 witness: the well-formed payload is accepted via the amended iff,
and a scalar payload is rejected with the format error. -/
theorem validateResponse_checks_witness :
    validateResponse goodPayload = Except.ok goodPayload ∧
    validateResponse (JValue.str "nope") = Except.error "Invalid response format" :=
  ⟨((validateResponse_checks goodPayload).1).mpr
      ⟨⟨_, rfl⟩, by decide, rfl, rfl, rfl⟩,
    (validateResponse_checks (JValue.str "nope")).2.1 (Or.inr rfl)⟩

/-- C6 counterexample: a payload whose `scale` holds two strings is
accepted, contradicting the claim that acceptance requires two numeric
scale elements: only `Array.isArray` and the length are checked. -/
theorem validateResponse_stringScale_counterexample :
    validateResponse stringScalePayload = Except.ok stringScalePayload ∧
    getField stringScalePayload "scale" = JValue.arr [JValue.str "a", JValue.str "b"] :=
  ⟨rfl, rfl⟩
